import Mathlib

/-!
# pseudo-rand-js

A shallow embedding of `src/pseudo-rand-js.cc`, the native addon that exposes the C++
standard-library random distributions to the host scripting runtime, and the properties
of it that the specification states.

## What is modelled, and how

* A C++ `double` is a value of `Double`: not-a-number, the two infinities, or a finite
  value carried as an exact rational.  Comparison, negation, addition, subtraction,
  multiplication and `std::log` follow IEEE 754 / C Annex F on the special values.  On
  finite values the arithmetic is exact: rounding, overflow and the sign of zero are not
  modelled.  The only finite arithmetic of the source is `2 * m - res`; what is proved of
  its finite results is stated with that in mind.
* A C++ `int` is a `CInt`: an integer together with the proof that it fits in 32 bits.
* The C++ standard library is not part of the repository.  It is the parameter `StdLib`:
  the engine type, its construction from a seed, one drawing function per distribution
  (each takes the engine and returns the draw with the advanced engine), the finite part
  of `std::log`, and the value an out-of-range `double` to `int` conversion yields.
* The host runtime is the `World`: the pending exception of the isolate, the return value
  slot of the callback and the entropy source behind `std::random_device`.
-/

namespace PseudoRand

/-! ## Doubles -/

/-- The values of a C++ `double`: not-a-number, minus infinity, plus infinity, and the
finite values (carried as exact rationals; both zeros are `fin 0`). -/
inductive Double where
  | nan : Double
  | ninf : Double
  | pinf : Double
  | fin (q : ℚ) : Double
deriving DecidableEq

namespace Double

/-- The test `std::isfinite`: neither not-a-number nor infinite. -/
def isFinite : Double → Bool
  | fin _ => true
  | _ => false

/-- The comparison `a < b` of two doubles; false as soon as one of them is not-a-number. -/
def lt : Double → Double → Bool
  | fin a, fin b => decide (a < b)
  | ninf, fin _ => true
  | ninf, pinf => true
  | fin _, pinf => true
  | _, _ => false

/-- The comparison `a <= b` of two doubles; false as soon as one of them is not-a-number. -/
def le : Double → Double → Bool
  | fin a, fin b => decide (a ≤ b)
  | ninf, ninf => true
  | ninf, fin _ => true
  | ninf, pinf => true
  | fin _, pinf => true
  | pinf, pinf => true
  | _, _ => false

/-- Unary minus. -/
def neg : Double → Double
  | nan => nan
  | ninf => pinf
  | pinf => ninf
  | fin q => fin (-q)

/-- The sum `a + b`: not-a-number is contagious and opposite infinities give
not-a-number. -/
def add : Double → Double → Double
  | nan, _ => nan
  | _, nan => nan
  | pinf, ninf => nan
  | ninf, pinf => nan
  | pinf, _ => pinf
  | _, pinf => pinf
  | ninf, _ => ninf
  | _, ninf => ninf
  | fin a, fin b => fin (a + b)

/-- The difference `a - b`. -/
def sub (a b : Double) : Double := add a (neg b)

/-- The sign rule of a product with an infinite factor whose other factor is the finite
`q`: zero times infinity is not-a-number. -/
def mulInf (positive : Bool) (q : ℚ) : Double :=
  if q = 0 then nan
  else if (decide (0 < q)) = positive then pinf
  else ninf

/-- The product `a * b`. -/
def mul : Double → Double → Double
  | nan, _ => nan
  | _, nan => nan
  | fin a, fin b => fin (a * b)
  | fin a, pinf => mulInf true a
  | fin a, ninf => mulInf false a
  | pinf, fin b => mulInf true b
  | ninf, fin b => mulInf false b
  | pinf, pinf => pinf
  | ninf, ninf => pinf
  | pinf, ninf => ninf
  | ninf, pinf => ninf

/-- The absolute value `std::fabs`. -/
def abs : Double → Double
  | nan => nan
  | ninf => pinf
  | pinf => pinf
  | fin q => fin |q|

/-- The function `std::log`.  `ln` is its value on the positive finite numbers; the rest
is fixed by C Annex F: a negative argument gives not-a-number, zero gives minus infinity,
plus infinity gives plus infinity. -/
def log (ln : ℚ → ℚ) : Double → Double
  | nan => nan
  | ninf => nan
  | pinf => pinf
  | fin q => if q < 0 then nan else if q = 0 then ninf else fin (ln q)

/-- The conversion of an integer to `double`. -/
def ofInt (z : ℤ) : Double := fin (z : ℚ)

end Double

/-- The greatest finite value of a `double`, `(2 - 2^-52) * 2^1023`. -/
def DBL_MAX : ℚ := 2 ^ 1024 - 2 ^ 971

/-- The least positive value of a `double`, the subnormal `2^-1074`. -/
def DBL_TRUE_MIN : ℚ := 1 / 2 ^ 1074

/-! ## C `int` -/

/-- The least value of a C `int`. -/
def INT_MIN : ℤ := -2147483648

/-- The greatest value of a C `int`. -/
def INT_MAX : ℤ := 2147483647

/-- A C `int`: a 32-bit signed integer. -/
structure CInt where
  val : ℤ
  min_le : INT_MIN ≤ val
  le_max : val ≤ INT_MAX
deriving DecidableEq

/-- Truncation toward zero: the integer part of a rational. -/
def truncate (q : ℚ) : ℤ := if 0 ≤ q then ⌊q⌋ else ⌈q⌉

/-- The implicit conversion `int v = d` of a `double`: the value truncated toward zero
when that fits in an `int`.  Otherwise C++ leaves the behaviour undefined; `ub` is what
the platform yields then. -/
def toInt (ub : Double → CInt) : Double → CInt
  | Double.fin q =>
    if h : INT_MIN ≤ truncate q ∧ truncate q ≤ INT_MAX then ⟨truncate q, h.1, h.2⟩
    else ub (Double.fin q)
  | d => ub d

/-! ## The host runtime -/

/-- A value of the scripting runtime, as far as the addon tells values apart. -/
inductive Value where
  | undefined : Value
  | null : Value
  | boolean (b : Bool) : Value
  | number (d : Double) : Value
  | string (s : String) : Value
  | object : Value
deriving DecidableEq

/-- The test `Value::IsNumber`. -/
def Value.IsNumber : Value → Bool
  | Value.number _ => true
  | _ => false

/-- The conversion `Value::NumberValue`.  On a number it is the number.  The conversion of
strings and objects is not modelled: every call of the addon is behind `Check`, so it only
ever sees numbers. -/
def Value.NumberValue : Value → Double
  | Value.number d => d
  | Value.undefined => Double.nan
  | Value.null => Double.fin 0
  | Value.boolean b => if b then Double.fin 1 else Double.fin 0
  | Value.string _ => Double.nan
  | Value.object => Double.nan

/-- An exception object: `Exception::Error` or `Exception::TypeError`, with its message. -/
inductive JSException where
  | Error (message : String) : JSException
  | TypeError (message : String) : JSException
deriving DecidableEq

/-- What a callback can change or consume: the exception scheduled on the isolate, the
return value slot (`none` while nothing was set) and the entropy source read by
`std::random_device`, given by the words it delivers and the count of words read so far. -/
structure World where
  exception : Option JSException
  returnValue : Option Value
  entropy : ℕ → ℕ
  entropyRead : ℕ

/-- The call `isolate->ThrowException(e)`. -/
def World.ThrowException (w : World) (e : JSException) : World :=
  { w with exception := some e }

/-- The call `args.GetReturnValue().Set(v)`. -/
def World.SetReturnValue (w : World) (v : Value) : World :=
  { w with returnValue := some v }

/-- The statements `std::random_device rd; ... rd()`: one 32-bit word of entropy. -/
def World.random_device (w : World) : ℕ × World :=
  (w.entropy w.entropyRead % 4294967296, { w with entropyRead := w.entropyRead + 1 })

/-- The element `args[i]` of the arguments: `undefined` past the end. -/
def arg (args : List Value) (i : ℕ) : Value := args.getD i Value.undefined

/-! ## The C++ standard library -/

/-- The part of the C++ standard library the addon calls, over the engine type `G`. -/
structure StdLib (G : Type) where
  /-- The constructor `std::mt19937 gen(seed)`. -/
  mt19937 : ℕ → G
  /-- One draw of `std::uniform_int_distribution<>(a, b)`.  The standard requires `a ≤ b`;
  for `a > b` the behaviour is undefined (the draw need not return), and nothing is proved
  from the value this function has there. -/
  uniform_int_distribution : CInt → CInt → G → CInt × G
  /-- One draw of `std::uniform_real_distribution<>(a, b)`. -/
  uniform_real_distribution : Double → Double → G → Double × G
  /-- One draw of `std::geometric_distribution<>(p)`. -/
  geometric_distribution : Double → G → CInt × G
  /-- One draw of `std::exponential_distribution<>(lambda)`. -/
  exponential_distribution : Double → G → Double × G
  /-- One draw of `std::normal_distribution<>(mean, stddev)`. -/
  normal_distribution : Double → Double → G → Double × G
  /-- The value of `std::log` on a positive finite number. -/
  ln : ℚ → ℚ
  /-- The result of converting a `double` that does not fit to `int`. -/
  intOutOfRange : Double → CInt

/-! ## The addon -/

/-- The loop of `Check`: `i` runs over `remaining` indices from its first value; the first
argument that is not a number throws the type error and ends the check with `false`. -/
def Check.loop (args : List Value) : ℕ → ℕ → World → Bool × World
  | _, 0, w => (true, w)
  | i, remaining + 1, w =>
    if !(arg args i).IsNumber then
      (false, w.ThrowException (JSException.TypeError "Wrong types of arguments"))
    else
      Check.loop args (i + 1) remaining w

/-- The function `Check(args, count)`.  In the source `count` is a `uint8_t`; the callbacks
pass `1` or `2`. -/
def Check (args : List Value) (count : ℕ) (w : World) : Bool × World :=
  if args.length ≠ count then
    (false, w.ThrowException (JSException.Error "Wrong number of arguments"))
  else
    Check.loop args 0 count w

variable {G : Type}

/-- The callback `UniformInt`. -/
def UniformInt (L : StdLib G) (args : List Value) (w : World) : World :=
  match Check args 2 w with
  | (false, w1) => w1
  | (true, w1) =>
    let (seed, w2) := w1.random_device
    let gen := L.mt19937 seed
    let min_v := toInt L.intOutOfRange (arg args 0).NumberValue
    let max_v := toInt L.intOutOfRange (arg args 1).NumberValue
    let (v, _) := L.uniform_int_distribution min_v max_v gen
    w2.SetReturnValue (Value.number (Double.ofInt v.val))

/-- The callback `UniformReal`. -/
def UniformReal (L : StdLib G) (args : List Value) (w : World) : World :=
  match Check args 2 w with
  | (false, w1) => w1
  | (true, w1) =>
    let (seed, w2) := w1.random_device
    let gen := L.mt19937 seed
    let min_v := (arg args 0).NumberValue
    let max_v := (arg args 1).NumberValue
    let (v, _) := L.uniform_real_distribution min_v max_v gen
    w2.SetReturnValue (Value.number v)

/-- The callback `Geometric`. -/
def Geometric (L : StdLib G) (args : List Value) (w : World) : World :=
  match Check args 1 w with
  | (false, w1) => w1
  | (true, w1) =>
    let (seed, w2) := w1.random_device
    let gen := L.mt19937 seed
    let p := (arg args 0).NumberValue
    let (v, _) := L.geometric_distribution p gen
    w2.SetReturnValue (Value.number (Double.ofInt v.val))

/-- The callback `Exponential`. -/
def Exponential (L : StdLib G) (args : List Value) (w : World) : World :=
  match Check args 1 w with
  | (false, w1) => w1
  | (true, w1) =>
    let (seed, w2) := w1.random_device
    let gen := L.mt19937 seed
    let lambda := (arg args 0).NumberValue
    let (v, _) := L.exponential_distribution lambda gen
    w2.SetReturnValue (Value.number v)

/-- The callback `Normal`. -/
def Normal (L : StdLib G) (args : List Value) (w : World) : World :=
  match Check args 2 w with
  | (false, w1) => w1
  | (true, w1) =>
    let (seed, w2) := w1.random_device
    let gen := L.mt19937 seed
    let m := (arg args 0).NumberValue
    let d := (arg args 1).NumberValue
    let (v, _) := L.normal_distribution m d gen
    w2.SetReturnValue (Value.number v)

/-- The statement `res = (res < m) ? 2 * m - res : res` of `ProactiveExpNormal`: the new
value of `res`. -/
def reflect (res m : Double) : Double :=
  if Double.lt res m then Double.sub (Double.mul (Double.fin 2) m) res else res

/-- The callback `ProactiveExpNormal`. -/
def ProactiveExpNormal (L : StdLib G) (args : List Value) (w : World) : World :=
  match Check args 2 w with
  | (false, w1) => w1
  | (true, w1) =>
    let (seed, w2) := w1.random_device
    let gen := L.mt19937 seed
    let ml := (arg args 0).NumberValue
    let dl := (arg args 1).NumberValue
    let (m, gen1) := L.exponential_distribution ml gen
    let (d, gen2) := L.exponential_distribution dl gen1
    let (x, _) := L.normal_distribution m d gen2
    let res := Double.log L.ln x
    let res := reflect res m
    w2.SetReturnValue (Value.number res)

/-- The three draws of `ProactiveExpNormal` from the engine `gen`, in the order the source
makes them: `m`, `d` and the inner normal draw `x`. -/
def ProactiveExpNormal.draws (L : StdLib G) (ml dl : Double) (gen : G) :
    Double × Double × Double :=
  let (m, gen1) := L.exponential_distribution ml gen
  let (d, gen2) := L.exponential_distribution dl gen1
  let (x, _) := L.normal_distribution m d gen2
  (m, d, x)

/-! ## The specification's reference for the composite draw -/

/-- The six steps the specification gives for `ProactiveExpNormal(mean_rate, stddev_rate)`,
on one engine: draw `m` from Exponential(mean_rate), draw `d` from Exponential(stddev_rate),
draw `x` from Normal(m, d), compute `res = ln(x)`, reflect `res` to `2*m - res` if
`res < m`, return `res`. -/
def ProactiveExpNormal_spec (L : StdLib G) (mean_rate stddev_rate : Double) (engine : G) :
    Double :=
  let step1 := L.exponential_distribution mean_rate engine
  let m := step1.1
  let step2 := L.exponential_distribution stddev_rate step1.2
  let d := step2.1
  let step3 := L.normal_distribution m d step2.2
  let x := step3.1
  let res := Double.log L.ln x
  if Double.lt res m = true then Double.sub (Double.mul (Double.fin 2) m) res else res

/-! ## What is taken of the library's uniform distributions -/

/-- The promise of `std::uniform_int_distribution`: constructed with `a ≤ b`, a draw `v`
satisfies `a ≤ v ≤ b`. -/
def UniformIntInRange (L : StdLib G) : Prop :=
  ∀ (a b : CInt) (g : G), a.val ≤ b.val →
    a.val ≤ (L.uniform_int_distribution a b g).1.val ∧
      (L.uniform_int_distribution a b g).1.val ≤ b.val

/-- What `std::uniform_real_distribution` keeps in double arithmetic.  The standard
promises `a ≤ v < b`; the draw is computed as `u * (b - a) + a` with `u` in `[0, 1)` and
rounded, so it can reach `b`.  What holds of it is the closed form: constructed with
finite `a ≤ b` whose difference does not overflow, a draw `v` satisfies `a ≤ v ≤ b`. -/
def UniformRealInClosedRange (L : StdLib G) : Prop :=
  ∀ (a b : ℚ) (g : G), a ≤ b → b - a ≤ DBL_MAX →
    Double.le (Double.fin a) (L.uniform_real_distribution (Double.fin a) (Double.fin b) g).1 = true ∧
      Double.le (L.uniform_real_distribution (Double.fin a) (Double.fin b) g).1 (Double.fin b) = true

/-! ## A stand-in for the standard library

A small deterministic library over engine states in `ℕ`, used to evaluate the addon on
concrete inputs.  Its draws respect the ranges of the real draws; they do not follow the
distributions. -/

namespace Sim

/-- The step of the stand-in engine: a linear congruential generator modulo 16. -/
def next (g : ℕ) : ℕ := (5 * g + 3) % 16

/-- The number in `[0, 1)` the stand-in engine yields in state `g`. -/
def unit (g : ℕ) : ℚ := ((g % 16 : ℕ) : ℚ) / 16

/-- The stand-in uniform integer draw: `a + g mod (b - a + 1)` when `a ≤ b`.  For `a > b`,
where the real draw is undefined, it is `a`; nothing is proved from that case. -/
def uniformInt (a b : CInt) (g : ℕ) : CInt × ℕ :=
  if h : a.val ≤ b.val then
    (⟨a.val + (g : ℤ) % (b.val - a.val + 1),
      le_trans a.min_le (le_add_of_nonneg_right (Int.emod_nonneg _ (by omega))),
      le_trans (by have := Int.emod_lt_of_pos (g : ℤ) (show 0 < b.val - a.val + 1 by omega); omega)
        b.le_max⟩, next g)
  else (a, next g)

/-- The stand-in uniform real draw: `a + (b - a) * u` on finite bounds. -/
def uniformReal : Double → Double → ℕ → Double × ℕ
  | Double.fin a, Double.fin b, g => (Double.fin (a + (b - a) * unit g), next g)
  | _, _, g => (Double.nan, next g)

/-- The stand-in geometric draw: the engine state modulo 16. -/
def geometric (_ : Double) (g : ℕ) : CInt × ℕ :=
  (⟨((g % 16 : ℕ) : ℤ), by unfold INT_MIN; omega, by unfold INT_MAX; omega⟩, next g)

/-- The stand-in exponential draw: `u / ((1 - u) * lambda)`, a value in `[0, ∞)`, for a
positive finite rate. -/
def exponential : Double → ℕ → Double × ℕ
  | Double.fin l, g =>
    if 0 < l then (Double.fin (unit g / ((1 - unit g) * l)), next g) else (Double.nan, next g)
  | _, g => (Double.nan, next g)

/-- The stand-in normal draw: `mean + stddev * (8 * u - 4)` on finite parameters. -/
def normal : Double → Double → ℕ → Double × ℕ
  | Double.fin m, Double.fin d, g => (Double.fin (m + d * (8 * unit g - 4)), next g)
  | _, _, g => (Double.nan, next g)

/-- The stand-in for the logarithm on positive numbers: `2 (q - 1) / (q + 1)`, the first
term of the series of `ln q` in `(q - 1) / (q + 1)`. -/
def ln (q : ℚ) : ℚ := 2 * (q - 1) / (q + 1)

/-- The stand-in for an out-of-range conversion to `int`: `INT_MIN`, the value the x86-64
conversion instruction yields. -/
def intOutOfRange (_ : Double) : CInt := ⟨INT_MIN, le_refl _, by decide⟩

/-- The stand-in library. -/
def lib : StdLib ℕ where
  mt19937 := fun seed => seed
  uniform_int_distribution := uniformInt
  uniform_real_distribution := uniformReal
  geometric_distribution := geometric
  exponential_distribution := exponential
  normal_distribution := normal
  ln := ln
  intOutOfRange := intOutOfRange

/-- The stand-in exponential draw in the range of a `double`: the draw of `exponential`,
or plus infinity when that exceeds `DBL_MAX`, as the quotient `-log(1 - u) / lambda`
overflows for a subnormal rate. -/
def exponentialOverflow (lambda : Double) (g : ℕ) : Double × ℕ :=
  match exponential lambda g with
  | (Double.fin q, g1) => if DBL_MAX < q then (Double.pinf, g1) else (Double.fin q, g1)
  | r => r

/-- The stand-in normal draw with an infinite mean: `ret * stddev + mean` is plus infinity
for the mean plus infinity and a finite standard deviation. -/
def normalOverflow : Double → Double → ℕ → Double × ℕ
  | Double.pinf, Double.fin _, g => (Double.pinf, next g)
  | m, d, g => normal m d g

/-- The stand-in library with draws that overflow to plus infinity. -/
def libOverflow : StdLib ℕ where
  mt19937 := fun seed => seed
  uniform_int_distribution := uniformInt
  uniform_real_distribution := uniformReal
  geometric_distribution := geometric
  exponential_distribution := exponentialOverflow
  normal_distribution := normalOverflow
  ln := ln
  intOutOfRange := intOutOfRange

/-- The world before a call: no exception, no return value, an entropy source that
delivers `seed` on every read. -/
def world (seed : ℕ) : World where
  exception := none
  returnValue := none
  entropy := fun _ => seed
  entropyRead := 0

end Sim

/-! ## `Check` -/

/-- The loop of `Check` returns true exactly when the `n` arguments from index `i` on are
all numbers. -/
theorem Check.loop_true_iff (args : List Value) (n i : ℕ) (w : World) :
    (Check.loop args i n w).1 = true ↔ ∀ j, j < n → (arg args (i + j)).IsNumber = true := by
  induction n generalizing i with
  | zero => simp [Check.loop]
  | succ n ih =>
    unfold Check.loop
    by_cases h : (arg args i).IsNumber = true
    · simp only [h, Bool.not_true, Bool.false_eq_true, if_false]
      rw [ih]
      constructor
      · intro hj j hlt
        cases j with
        | zero => simpa using h
        | succ j =>
          have := hj j (by omega)
          rwa [Nat.add_assoc, Nat.add_comm 1 j] at this
      · intro hj j hlt
        have := hj (j + 1) (by omega)
        rwa [Nat.add_assoc, Nat.add_comm 1 j]
    · simp only [Bool.not_eq_true] at h
      simp only [h, Bool.not_false, if_true]
      constructor
      · intro hf; cases hf
      · intro hj
        have := hj 0 (by omega)
        simp [h] at this

/-- A loop that returns true throws nothing. -/
theorem Check.loop_world_of_true (args : List Value) (n i : ℕ) (w : World)
    (h : (Check.loop args i n w).1 = true) : (Check.loop args i n w).2 = w := by
  induction n generalizing i with
  | zero => simp [Check.loop]
  | succ n ih =>
    unfold Check.loop at h ⊢
    by_cases hn : (arg args i).IsNumber = true
    · simp only [hn, Bool.not_true, Bool.false_eq_true, if_false] at h ⊢
      exact ih _ h
    · simp only [Bool.not_eq_true] at hn
      simp [hn] at h

/-- A loop that returns false has thrown the type error, once. -/
theorem Check.loop_of_false (args : List Value) (n i : ℕ) (w : World)
    (h : (Check.loop args i n w).1 = false) :
    Check.loop args i n w =
      (false, w.ThrowException (JSException.TypeError "Wrong types of arguments")) := by
  induction n generalizing i with
  | zero => simp [Check.loop] at h
  | succ n ih =>
    unfold Check.loop at h ⊢
    by_cases hn : (arg args i).IsNumber = true
    · simp only [hn, Bool.not_true, Bool.false_eq_true, if_false] at h ⊢
      exact ih _ h
    · simp only [Bool.not_eq_true] at hn
      simp [hn]

theorem Check_true_iff (args : List Value) (count : ℕ) (w : World) :
    (Check args count w).1 = true ↔
      args.length = count ∧ ∀ i, i < count → (arg args i).IsNumber = true := by
  unfold Check
  by_cases h : args.length = count
  · simp only [h, ne_eq, not_true_eq_false, if_false, true_and]
    rw [Check.loop_true_iff]
    simp
  · simp [h]

/-- A `Check` that returns true leaves the world as it was. -/
theorem Check_world_of_true (args : List Value) (count : ℕ) (w : World)
    (h : (Check args count w).1 = true) : (Check args count w).2 = w := by
  unfold Check at h ⊢
  by_cases hl : args.length = count
  · simp only [hl, ne_eq, not_true_eq_false, if_false] at h ⊢
    exact Check.loop_world_of_true _ _ _ _ h
  · simp [hl] at h

theorem Check_eq_of_true (args : List Value) (count : ℕ) (w : World)
    (h : (Check args count w).1 = true) : Check args count w = (true, w) :=
  Prod.ext h (Check_world_of_true args count w h)

/-- The count of the arguments is tested first. -/
theorem Check_of_length_ne (args : List Value) (count : ℕ) (w : World)
    (h : args.length ≠ count) :
    Check args count w =
      (false, w.ThrowException (JSException.Error "Wrong number of arguments")) := by
  simp [Check, h]

/-- With the right count, one argument that is not a number is enough for the type
error. -/
theorem Check_of_not_number (args : List Value) (count : ℕ) (w : World)
    (hlen : args.length = count) (i : ℕ) (hi : i < count)
    (hnum : (arg args i).IsNumber = false) :
    Check args count w =
      (false, w.ThrowException (JSException.TypeError "Wrong types of arguments")) := by
  have hf : (Check args count w).1 = false := by
    rw [← Bool.not_eq_true]
    intro ht
    have := ((Check_true_iff args count w).1 ht).2 i hi
    simp [hnum] at this
  unfold Check at hf ⊢
  simp only [hlen, ne_eq, not_true_eq_false, if_false] at hf ⊢
  exact Check.loop_of_false _ _ _ _ hf

/-- A failed `Check` changes nothing but the pending exception. -/
theorem Check_frame_of_false (args : List Value) (count : ℕ) (w : World)
    (h : (Check args count w).1 = false) :
    (Check args count w).2.returnValue = w.returnValue ∧
      (Check args count w).2.entropyRead = w.entropyRead ∧
      (Check args count w).2.exception ≠ none := by
  by_cases hl : args.length = count
  · unfold Check at h ⊢
    simp only [hl, ne_eq, not_true_eq_false, if_false] at h ⊢
    rw [Check.loop_of_false _ _ _ _ h]
    simp [World.ThrowException]
  · rw [Check_of_length_ne _ _ _ hl]
    simp [World.ThrowException]

/-! ## The callbacks after `Check` -/

theorem UniformInt_of_Check_false (L : StdLib G) (args : List Value) (w : World)
    (h : (Check args 2 w).1 = false) : UniformInt L args w = (Check args 2 w).2 := by
  unfold UniformInt
  generalize Check args 2 w = r at h ⊢
  obtain ⟨b, w1⟩ := r
  simp only at h
  subst h
  rfl

theorem UniformReal_of_Check_false (L : StdLib G) (args : List Value) (w : World)
    (h : (Check args 2 w).1 = false) : UniformReal L args w = (Check args 2 w).2 := by
  unfold UniformReal
  generalize Check args 2 w = r at h ⊢
  obtain ⟨b, w1⟩ := r
  simp only at h
  subst h
  rfl

theorem Geometric_of_Check_false (L : StdLib G) (args : List Value) (w : World)
    (h : (Check args 1 w).1 = false) : Geometric L args w = (Check args 1 w).2 := by
  unfold Geometric
  generalize Check args 1 w = r at h ⊢
  obtain ⟨b, w1⟩ := r
  simp only at h
  subst h
  rfl

theorem Exponential_of_Check_false (L : StdLib G) (args : List Value) (w : World)
    (h : (Check args 1 w).1 = false) : Exponential L args w = (Check args 1 w).2 := by
  unfold Exponential
  generalize Check args 1 w = r at h ⊢
  obtain ⟨b, w1⟩ := r
  simp only at h
  subst h
  rfl

theorem Normal_of_Check_false (L : StdLib G) (args : List Value) (w : World)
    (h : (Check args 2 w).1 = false) : Normal L args w = (Check args 2 w).2 := by
  unfold Normal
  generalize Check args 2 w = r at h ⊢
  obtain ⟨b, w1⟩ := r
  simp only at h
  subst h
  rfl

theorem ProactiveExpNormal_of_Check_false (L : StdLib G) (args : List Value) (w : World)
    (h : (Check args 2 w).1 = false) : ProactiveExpNormal L args w = (Check args 2 w).2 := by
  unfold ProactiveExpNormal
  generalize Check args 2 w = r at h ⊢
  obtain ⟨b, w1⟩ := r
  simp only at h
  subst h
  rfl

/-- What `UniformInt` does with two numbers, in one expression. -/
theorem UniformInt_numbers (L : StdLib G) (a b : Double) (w : World) :
    UniformInt L [Value.number a, Value.number b] w =
      w.random_device.2.SetReturnValue (Value.number (Double.ofInt
        (L.uniform_int_distribution (toInt L.intOutOfRange a) (toInt L.intOutOfRange b)
          (L.mt19937 w.random_device.1)).1.val)) := rfl

theorem UniformReal_numbers (L : StdLib G) (a b : Double) (w : World) :
    UniformReal L [Value.number a, Value.number b] w =
      w.random_device.2.SetReturnValue (Value.number
        (L.uniform_real_distribution a b (L.mt19937 w.random_device.1)).1) := rfl

theorem Geometric_number (L : StdLib G) (p : Double) (w : World) :
    Geometric L [Value.number p] w =
      w.random_device.2.SetReturnValue (Value.number (Double.ofInt
        (L.geometric_distribution p (L.mt19937 w.random_device.1)).1.val)) := rfl

theorem Exponential_number (L : StdLib G) (lambda : Double) (w : World) :
    Exponential L [Value.number lambda] w =
      w.random_device.2.SetReturnValue (Value.number
        (L.exponential_distribution lambda (L.mt19937 w.random_device.1)).1) := rfl

/-- What `ProactiveExpNormal` does with two numbers, in terms of its three draws. -/
theorem ProactiveExpNormal_draws (L : StdLib G) (ml dl : Double) (w : World) :
    ProactiveExpNormal L [Value.number ml, Value.number dl] w =
      w.random_device.2.SetReturnValue (Value.number (reflect
        (Double.log L.ln (ProactiveExpNormal.draws L ml dl (L.mt19937 w.random_device.1)).2.2)
        (ProactiveExpNormal.draws L ml dl (L.mt19937 w.random_device.1)).1)) := rfl

/-- Called with twice the same number, `UniformInt` returns an `int`: a value between
`INT_MIN` and `INT_MAX`. -/
theorem UniformInt_returns_int (L : StdLib G) (a : Double) (w : World) :
    ∃ v : ℤ, (UniformInt L [Value.number a, Value.number a] w).returnValue =
        some (Value.number (Double.ofInt v)) ∧ INT_MIN ≤ v ∧ v ≤ INT_MAX :=
  ⟨_, by rw [UniformInt_numbers]; rfl, CInt.min_le _, CInt.le_max _⟩

/-! ## Conversion to `int` -/

theorem truncate_intCast (z : ℤ) : truncate (z : ℚ) = z := by
  unfold truncate
  split <;> simp

/-- Truncation toward zero is monotone. -/
theorem truncate_mono {a b : ℚ} (h : a ≤ b) : truncate a ≤ truncate b := by
  unfold truncate
  by_cases ha : 0 ≤ a
  · have hb : 0 ≤ b := le_trans ha h
    simp only [ha, hb, if_true]
    exact Int.floor_mono h
  · by_cases hb : 0 ≤ b
    · simp only [ha, hb, if_true, if_false]
      have h1 : ⌈a⌉ ≤ 0 := by
        rw [Int.ceil_le]
        push_neg at ha
        exact_mod_cast ha.le
      have h2 : (0 : ℤ) ≤ ⌊b⌋ := by
        rw [Int.le_floor]
        exact_mod_cast hb
      exact le_trans h1 h2
    · simp only [ha, hb, if_false]
      exact Int.ceil_mono h

theorem truncate_eq_of_nonneg {q : ℚ} {z : ℤ} (h0 : 0 ≤ q) (h1 : (z : ℚ) ≤ q)
    (h2 : q < (z : ℚ) + 1) : truncate q = z := by
  unfold truncate
  rw [if_pos h0, Int.floor_eq_iff]
  exact ⟨h1, h2⟩

theorem truncate_half : truncate (1 / 2) = 0 :=
  truncate_eq_of_nonneg (by norm_num) (by norm_num) (by norm_num)

theorem truncate_nine_tenths : truncate (9 / 10) = 0 :=
  truncate_eq_of_nonneg (by norm_num) (by norm_num) (by norm_num)

theorem toInt_val_of_fits (ub : Double → CInt) (q : ℚ)
    (h : INT_MIN ≤ truncate q ∧ truncate q ≤ INT_MAX) :
    (toInt ub (Double.fin q)).val = truncate q := by
  simp [toInt, h]

/-- An integer that fits in an `int` converts to itself. -/
theorem toInt_ofInt_val (ub : Double → CInt) (z : ℤ) (h : INT_MIN ≤ z ∧ z ≤ INT_MAX) :
    (toInt ub (Double.ofInt z)).val = z := by
  unfold Double.ofInt
  rw [toInt_val_of_fits ub _ (by rw [truncate_intCast]; exact h), truncate_intCast]

theorem toInt_of_not_fits (ub : Double → CInt) (q : ℚ)
    (h : ¬ (INT_MIN ≤ truncate q ∧ truncate q ≤ INT_MAX)) :
    toInt ub (Double.fin q) = ub (Double.fin q) := by
  simp [toInt, h]

/-! ## The logarithm and the reflection rule -/

/-- The logarithm of a negative double is not-a-number. -/
theorem log_of_neg (ln : ℚ → ℚ) (x : Double) (hx : Double.lt x (Double.fin 0) = true) :
    Double.log ln x = Double.nan := by
  cases x with
  | nan => rfl
  | pinf => simp [Double.lt] at hx
  | ninf => rfl
  | fin q =>
    simp only [Double.lt, decide_eq_true_eq] at hx
    simp [Double.log, hx]

/-- Not-a-number passes the reflection rule unchanged: the comparison is false. -/
theorem reflect_log_of_neg (ln : ℚ → ℚ) (x m : Double) (hx : Double.lt x (Double.fin 0) = true) :
    reflect (Double.log ln x) m = Double.nan := by
  rw [log_of_neg ln x hx]
  rfl

/-- On finite values, in exact arithmetic, the reflection rule is `m + |res - m|`. -/
theorem reflect_fin (l m : ℚ) :
    reflect (Double.fin l) (Double.fin m) = Double.fin (m + |l - m|) := by
  unfold reflect
  by_cases h : l < m
  · simp only [Double.lt, h, decide_True, if_true, Double.mul, Double.sub, Double.neg,
      Double.add]
    rw [abs_of_neg (by linarith)]
    congr 1
    ring
  · simp only [Double.lt, h, decide_False, Bool.false_eq_true, if_false]
    rw [abs_of_nonneg (by linarith)]
    congr 1
    ring

/-! ## The stand-in library -/

theorem Sim.unit_nonneg (g : ℕ) : 0 ≤ Sim.unit g := by
  unfold Sim.unit
  positivity

theorem Sim.unit_lt_one (g : ℕ) : Sim.unit g < 1 := by
  unfold Sim.unit
  rw [div_lt_one (by norm_num)]
  have : g % 16 < 16 := Nat.mod_lt _ (by norm_num)
  exact_mod_cast this

/-- The stand-in uniform integer draw stays within its bounds. -/
theorem Sim.lib_uniformIntInRange : UniformIntInRange Sim.lib := by
  intro a b g h
  show a.val ≤ (Sim.uniformInt a b g).1.val ∧ (Sim.uniformInt a b g).1.val ≤ b.val
  unfold Sim.uniformInt
  simp only [h, dif_pos]
  have h1 := Int.emod_nonneg (g : ℤ) (show b.val - a.val + 1 ≠ 0 by omega)
  have h2 := Int.emod_lt_of_pos (g : ℤ) (show 0 < b.val - a.val + 1 by omega)
  constructor <;> omega

/-- The stand-in uniform real draw stays within its closed interval. -/
theorem Sim.lib_uniformRealInClosedRange : UniformRealInClosedRange Sim.lib := by
  intro a b g h _
  show Double.le (Double.fin a) (Sim.uniformReal (Double.fin a) (Double.fin b) g).1 = true ∧
    Double.le (Sim.uniformReal (Double.fin a) (Double.fin b) g).1 (Double.fin b) = true
  have h0 := Sim.unit_nonneg g
  have h1 := Sim.unit_lt_one g
  simp only [Sim.uniformReal, Double.le, decide_eq_true_eq]
  constructor
  · nlinarith
  · nlinarith

theorem Sim.world_random_device (seed : ℕ) (h : seed < 4294967296) :
    (Sim.world seed).random_device.1 = seed := by
  simp [World.random_device, Sim.world, Nat.mod_eq_of_lt h]

theorem Sim.draws_seed_4 :
    ProactiveExpNormal.draws Sim.lib (Double.fin 1) (Double.fin 1) 4 =
      (Double.fin (1 / 3), Double.fin (7 / 9), Double.fin (-4 / 9)) := by
  simp [ProactiveExpNormal.draws, Sim.lib, Sim.exponential, Sim.normal, Sim.unit, Sim.next]
  norm_num

theorem Sim.draws_seed_6 :
    ProactiveExpNormal.draws Sim.lib (Double.fin 1) (Double.fin 1) 6 =
      (Double.fin (3 / 5), Double.fin (1 / 15), Double.fin (3 / 5)) := by
  simp [ProactiveExpNormal.draws, Sim.lib, Sim.exponential, Sim.normal, Sim.unit, Sim.next]
  norm_num

theorem Sim.spec_seed_6 :
    ProactiveExpNormal_spec Sim.lib (Double.fin 1) (Double.fin 1) 6 = Double.fin (17 / 10) := by
  simp [ProactiveExpNormal_spec, Sim.lib, Sim.exponential, Sim.normal, Sim.unit, Sim.next,
    Sim.ln, Double.log, Double.lt, Double.mul, Double.sub, Double.neg, Double.add]
  norm_num

theorem Sim.draws_overflow_seed_8 :
    ProactiveExpNormal.draws Sim.libOverflow (Double.fin DBL_TRUE_MIN) (Double.fin 1) 8 =
      (Double.pinf, Double.fin (11 / 5), Double.pinf) := by
  have h1 : Sim.exponentialOverflow (Double.fin DBL_TRUE_MIN) 8 = (Double.pinf, 11) := by
    simp [Sim.exponentialOverflow, Sim.exponential, Sim.unit, Sim.next, DBL_MAX, DBL_TRUE_MIN]
    norm_num
  have h2 : Sim.exponentialOverflow (Double.fin 1) 11 = (Double.fin (11 / 5), 10) := by
    simp [Sim.exponentialOverflow, Sim.exponential, Sim.unit, Sim.next, DBL_MAX]
    norm_num
  simp only [ProactiveExpNormal.draws, Sim.libOverflow, h1, h2, Sim.normalOverflow]

/-! ## The composite draw against the specification -/

/-- C1. `ProactiveExpNormal(mean_rate, stddev_rate)` equals the specification's six-step
reference for every engine state: whenever the arguments pass `Check` (they are two
numbers, `mean_rate` and `stddev_rate`), the callback reads one seed from the entropy
source, builds one engine from it and sets as return value what the six steps (`m` from
Exponential(mean_rate), then `d` from Exponential(stddev_rate), then `x` from
Normal(m, d), `res = ln(x)`, `2*m - res` if `res < m` and `res` otherwise) give on that
engine; nothing else changes. -/
theorem ProactiveExpNormal_eq_spec (L : StdLib G) (args : List Value) (w : World)
    (hcheck : (Check args 2 w).1 = true) :
    ProactiveExpNormal L args w =
      w.random_device.2.SetReturnValue (Value.number
        (ProactiveExpNormal_spec L (arg args 0).NumberValue (arg args 1).NumberValue
          (L.mt19937 w.random_device.1))) := by
  unfold ProactiveExpNormal
  rw [Check_eq_of_true args 2 w hcheck]
  rfl

/-- C1 at `mean_rate = 1`, `stddev_rate = 1` on the stand-in library with seed `6`: the
draws are `m = 3/5`, `d = 1/15`, `x = 3/5`, the stand-in logarithm of `x` is `-1/2`, below
`m`, and the value returned is the reflection `2 * 3/5 + 1/2 = 17/10`. -/
theorem ProactiveExpNormal_eq_spec_witness :
    ProactiveExpNormal Sim.lib [Value.number (Double.fin 1), Value.number (Double.fin 1)]
        (Sim.world 6) =
      (Sim.world 6).random_device.2.SetReturnValue (Value.number (Double.fin (17 / 10))) := by
  have h := ProactiveExpNormal_eq_spec Sim.lib
    [Value.number (Double.fin 1), Value.number (Double.fin 1)] (Sim.world 6) rfl
  have hseed : Sim.lib.mt19937 (Sim.world 6).random_device.1 = 6 := by
    show (Sim.world 6).random_device.1 = 6
    exact Sim.world_random_device 6 (by norm_num)
  rw [hseed] at h
  rw [h]
  show _ = (Sim.world 6).random_device.2.SetReturnValue (Value.number (Double.fin (17 / 10)))
  have e : ProactiveExpNormal_spec Sim.lib (arg [Value.number (Double.fin 1),
      Value.number (Double.fin 1)] 0).NumberValue (arg [Value.number (Double.fin 1),
      Value.number (Double.fin 1)] 1).NumberValue 6 = Double.fin (17 / 10) := Sim.spec_seed_6
  rw [e]

/-! ## Argument checking -/

/-- C6. `Check(args, count)` returns true if and only if the number of arguments equals
`count` and each of the first `count` arguments is a number; a wrong number of arguments
raises the error "Wrong number of arguments", whatever the types; with the right number,
an argument that is not a number raises the type error "Wrong types of arguments"; a
`Check` that returns true changes nothing; a `Check` that returns false leaves an
exception pending and touches neither the return value nor the entropy source; and each
of the six exported samplers whose `Check` fails returns as `Check` left the world: no
entropy read, no engine built, no return value set. -/
theorem Check_contract (args : List Value) (count : ℕ) (w : World) :
    ((Check args count w).1 = true ↔
        args.length = count ∧ ∀ i, i < count → (arg args i).IsNumber = true) ∧
    (args.length ≠ count →
        Check args count w =
          (false, w.ThrowException (JSException.Error "Wrong number of arguments"))) ∧
    (args.length = count → (∃ i, i < count ∧ (arg args i).IsNumber = false) →
        Check args count w =
          (false, w.ThrowException (JSException.TypeError "Wrong types of arguments"))) ∧
    ((Check args count w).1 = true → (Check args count w).2 = w) ∧
    (∀ c, (Check args c w).1 = false →
        (Check args c w).2.returnValue = w.returnValue ∧
        (Check args c w).2.entropyRead = w.entropyRead ∧
        (Check args c w).2.exception ≠ none) ∧
    (∀ (G : Type) (L : StdLib G),
      ((Check args 2 w).1 = false → UniformInt L args w = (Check args 2 w).2) ∧
      ((Check args 2 w).1 = false → UniformReal L args w = (Check args 2 w).2) ∧
      ((Check args 1 w).1 = false → Geometric L args w = (Check args 1 w).2) ∧
      ((Check args 1 w).1 = false → Exponential L args w = (Check args 1 w).2) ∧
      ((Check args 2 w).1 = false → Normal L args w = (Check args 2 w).2) ∧
      ((Check args 2 w).1 = false → ProactiveExpNormal L args w = (Check args 2 w).2)) := by
  refine ⟨Check_true_iff args count w, Check_of_length_ne args count w, ?_,
    Check_world_of_true args count w, ?_, ?_⟩
  · rintro hlen ⟨i, hi, hnum⟩
    exact Check_of_not_number args count w hlen i hi hnum
  · intro c hc
    exact Check_frame_of_false args c w hc
  · intro G L
    exact ⟨UniformInt_of_Check_false L args w, UniformReal_of_Check_false L args w,
      Geometric_of_Check_false L args w, Exponential_of_Check_false L args w,
      Normal_of_Check_false L args w, ProactiveExpNormal_of_Check_false L args w⟩

/-- C6 at concrete inputs: one argument where two are expected raises the error on the
count although that argument is a string; two arguments of which the second is a string
raise the type error; in both cases `UniformInt` sets no return value and reads no
entropy. -/
theorem Check_contract_witness :
    Check [Value.string "a"] 2 (Sim.world 7) =
        (false, (Sim.world 7).ThrowException (JSException.Error "Wrong number of arguments")) ∧
      Check [Value.number (Double.fin 1), Value.string "a"] 2 (Sim.world 7) =
        (false, (Sim.world 7).ThrowException
          (JSException.TypeError "Wrong types of arguments")) ∧
      (UniformInt Sim.lib [Value.number (Double.fin 1), Value.string "a"]
        (Sim.world 7)).returnValue = none ∧
      (UniformInt Sim.lib [Value.number (Double.fin 1), Value.string "a"]
        (Sim.world 7)).entropyRead = 0 :=
  ⟨(Check_contract [Value.string "a"] 2 (Sim.world 7)).2.1 (by decide),
    (Check_contract [Value.number (Double.fin 1), Value.string "a"] 2 (Sim.world 7)).2.2.1
      rfl ⟨1, by decide, rfl⟩,
    by
      rw [((Check_contract [Value.number (Double.fin 1), Value.string "a"] 2
        (Sim.world 7)).2.2.2.2.2 ℕ Sim.lib).1 rfl]
      rfl,
    by
      rw [((Check_contract [Value.number (Double.fin 1), Value.string "a"] 2
        (Sim.world 7)).2.2.2.2.2 ℕ Sim.lib).1 rfl]
      rfl⟩

/-! ## The uniform integer draw -/

/-- C2 (amended). For every pair of integers `min ≤ max` that fit in a 32-bit `int` and
every engine state, `UniformInt(min, max)` returns a value `v` with `min ≤ v ≤ max`,
given that the library's uniform integer distribution keeps its draws in the closed
interval it was constructed with. -/
theorem UniformInt_in_range (L : StdLib G) (hL : UniformIntInRange L) (w : World)
    (min max : ℤ) (hmin : INT_MIN ≤ min) (hle : min ≤ max) (hmax : max ≤ INT_MAX) :
    ∃ v : ℤ, (UniformInt L [Value.number (Double.ofInt min),
        Value.number (Double.ofInt max)] w).returnValue =
          some (Value.number (Double.ofInt v)) ∧ min ≤ v ∧ v ≤ max := by
  have h1 := toInt_ofInt_val L.intOutOfRange min ⟨hmin, le_trans hle hmax⟩
  have h2 := toInt_ofInt_val L.intOutOfRange max ⟨le_trans hmin hle, hmax⟩
  have h := hL (toInt L.intOutOfRange (Double.ofInt min))
    (toInt L.intOutOfRange (Double.ofInt max)) (L.mt19937 w.random_device.1)
    (by rw [h1, h2]; exact hle)
  rw [h1, h2] at h
  exact ⟨_, by rw [UniformInt_numbers]; rfl, h.1, h.2⟩

/-- C2 (amended) at `min = 1`, `max = 6` on the stand-in library. -/
theorem UniformInt_in_range_witness :
    ∃ v : ℤ, (UniformInt Sim.lib [Value.number (Double.ofInt 1),
        Value.number (Double.ofInt 6)] (Sim.world 7)).returnValue =
          some (Value.number (Double.ofInt v)) ∧ 1 ≤ v ∧ v ≤ 6 :=
  UniformInt_in_range Sim.lib Sim.lib_uniformIntInRange (Sim.world 7) 1 6
    (by decide) (by decide) (by decide)

/-- C2 as stated fails at `min = max = 2147483648`, integers with `min ≤ max`: the value
returned is an `int`, here `-2147483648`, and it is below `min`; and whatever the library
and whatever an out-of-range conversion yields, the value returned there is below `min`. -/
theorem UniformInt_out_of_int_range :
    (UniformInt Sim.lib [Value.number (Double.ofInt 2147483648),
        Value.number (Double.ofInt 2147483648)] (Sim.world 7)).returnValue =
      some (Value.number (Double.ofInt (-2147483648))) ∧
    Double.le (Double.ofInt 2147483648) (Double.ofInt (-2147483648)) = false ∧
    (∀ (G : Type) (L : StdLib G) (w : World),
      ∃ v : ℤ, (UniformInt L [Value.number (Double.ofInt 2147483648),
          Value.number (Double.ofInt 2147483648)] w).returnValue =
        some (Value.number (Double.ofInt v)) ∧ v < 2147483648) := by
  refine ⟨?_, ?_, ?_⟩
  · rw [UniformInt_numbers]
    have h : toInt Sim.lib.intOutOfRange (Double.ofInt 2147483648) =
        Sim.intOutOfRange (Double.ofInt 2147483648) := by
      unfold Double.ofInt
      rw [toInt_of_not_fits]
      · rfl
      · rw [truncate_intCast]
        decide
    rw [h]
    simp [World.SetReturnValue, Sim.lib, Sim.uniformInt, Sim.intOutOfRange, INT_MIN,
      Double.ofInt]
  · simp [Double.le, Double.ofInt]
  · intro G L w
    obtain ⟨v, hv, _, hmax⟩ := UniformInt_returns_int L (Double.ofInt 2147483648) w
    exact ⟨v, hv, lt_of_le_of_lt hmax (by decide)⟩

/-- C9 (amended). `UniformInt` converts its two numeric arguments to `int` before drawing;
for finite arguments `min ≤ max` whose truncations toward zero fit in a 32-bit `int` the
conversion is that truncation, the draw is made on `[trunc(min), trunc(max)]` and the
result lies in `[trunc(min), trunc(max)]` rather than `[min, max]` (given that the
library's uniform integer distribution keeps its draws in the interval it was constructed
with); for `min = 0.5`, `max = 0.9` the returned value is `0`, strictly less than `min`. -/
theorem UniformInt_truncates (L : StdLib G) (hL : UniformIntInRange L) (w : World)
    (min max : ℚ) (hmin : INT_MIN ≤ truncate min) (hle : min ≤ max)
    (hmax : truncate max ≤ INT_MAX) :
    (UniformInt L [Value.number (Double.fin min), Value.number (Double.fin max)] w).returnValue =
        some (Value.number (Double.ofInt (L.uniform_int_distribution
          ⟨truncate min, hmin, le_trans (truncate_mono hle) hmax⟩
          ⟨truncate max, le_trans hmin (truncate_mono hle), hmax⟩
          (L.mt19937 w.random_device.1)).1.val)) ∧
    (∃ v : ℤ, (UniformInt L [Value.number (Double.fin min),
        Value.number (Double.fin max)] w).returnValue =
          some (Value.number (Double.ofInt v)) ∧ truncate min ≤ v ∧ v ≤ truncate max) ∧
    ((UniformInt L [Value.number (Double.fin (1 / 2)),
        Value.number (Double.fin (9 / 10))] w).returnValue =
          some (Value.number (Double.ofInt 0)) ∧
      Double.lt (Double.ofInt 0) (Double.fin (1 / 2)) = true) := by
  have key : ∀ (a b : ℚ) (ha : INT_MIN ≤ truncate a) (hab : truncate a ≤ truncate b)
      (hb : truncate b ≤ INT_MAX),
      (UniformInt L [Value.number (Double.fin a), Value.number (Double.fin b)] w).returnValue =
        some (Value.number (Double.ofInt (L.uniform_int_distribution
          ⟨truncate a, ha, le_trans hab hb⟩ ⟨truncate b, le_trans ha hab, hb⟩
          (L.mt19937 w.random_device.1)).1.val)) := by
    intro a b ha hab hb
    rw [UniformInt_numbers]
    have e1 : toInt L.intOutOfRange (Double.fin a) = ⟨truncate a, ha, le_trans hab hb⟩ := by
      simp [toInt, ha, le_trans hab hb]
    have e2 : toInt L.intOutOfRange (Double.fin b) = ⟨truncate b, le_trans ha hab, hb⟩ := by
      simp [toInt, hb, le_trans ha hab]
    rw [e1, e2]
    rfl
  refine ⟨key min max hmin (truncate_mono hle) hmax, ?_, ?_, ?_⟩
  · have h := hL ⟨truncate min, hmin, le_trans (truncate_mono hle) hmax⟩
      ⟨truncate max, le_trans hmin (truncate_mono hle), hmax⟩ (L.mt19937 w.random_device.1)
      (truncate_mono hle)
    exact ⟨_, key min max hmin (truncate_mono hle) hmax, h.1, h.2⟩
  · have h0 : INT_MIN ≤ truncate (1 / 2) := by rw [truncate_half]; decide
    have h1 : truncate (1 / 2) ≤ truncate (9 / 10) := by
      rw [truncate_half, truncate_nine_tenths]
    have h2 : truncate (9 / 10) ≤ INT_MAX := by rw [truncate_nine_tenths]; decide
    rw [key (1 / 2) (9 / 10) h0 h1 h2]
    have h := hL ⟨truncate (1 / 2), h0, le_trans h1 h2⟩
      ⟨truncate (9 / 10), le_trans h0 h1, h2⟩ (L.mt19937 w.random_device.1) h1
    have hv : (L.uniform_int_distribution ⟨truncate (1 / 2), h0, le_trans h1 h2⟩
        ⟨truncate (9 / 10), le_trans h0 h1, h2⟩ (L.mt19937 w.random_device.1)).1.val = 0 := by
      have hlo : truncate (1 / 2) ≤ _ := h.1
      have hhi : _ ≤ truncate (9 / 10) := h.2
      have e1 := truncate_half
      have e2 := truncate_nine_tenths
      exact le_antisymm (hhi.trans e2.le) (e1.ge.trans hlo)
    rw [hv]
  · simp [Double.lt, Double.ofInt]

/-- C9 (amended) at `min = 0.5`, `max = 0.9` on the stand-in library: the draw is made on
`[0, 0]` and the value returned, `0`, is below `min`. -/
theorem UniformInt_truncates_witness :
    (∃ v : ℤ, (UniformInt Sim.lib [Value.number (Double.fin (1 / 2)),
        Value.number (Double.fin (9 / 10))] (Sim.world 7)).returnValue =
          some (Value.number (Double.ofInt v)) ∧ truncate (1 / 2) ≤ v ∧
          v ≤ truncate (9 / 10)) ∧
    ((UniformInt Sim.lib [Value.number (Double.fin (1 / 2)),
        Value.number (Double.fin (9 / 10))] (Sim.world 7)).returnValue =
          some (Value.number (Double.ofInt 0)) ∧
      Double.lt (Double.ofInt 0) (Double.fin (1 / 2)) = true) :=
  (UniformInt_truncates Sim.lib Sim.lib_uniformIntInRange (Sim.world 7) (1 / 2) (9 / 10)
    (by rw [truncate_half]; decide) (by norm_num)
    (by rw [truncate_nine_tenths]; decide)).2

/-- C9 as stated fails at `min = max = 2147483648.5`: the truncation `2147483648` is not a
32-bit integer, the value returned is `-2147483648`, and it is not in
`[trunc(min), trunc(max)]`; whatever the library and whatever an out-of-range conversion
yields, the value returned there is below `trunc(min)`.  It also fails for the
non-integer arguments `min = 1.5`, `max = 0.5`: `[trunc(min), trunc(max)] = [1, 0]` holds
no value at all. -/
theorem UniformInt_truncation_out_of_int_range :
    truncate (4294967297 / 2) = 2147483648 ∧
    (UniformInt Sim.lib [Value.number (Double.fin (4294967297 / 2)),
        Value.number (Double.fin (4294967297 / 2))] (Sim.world 7)).returnValue =
      some (Value.number (Double.ofInt (-2147483648))) ∧
    ¬ ((2147483648 : ℤ) ≤ -2147483648) ∧
    (∀ (G : Type) (L : StdLib G) (w : World),
      ∃ v : ℤ, (UniformInt L [Value.number (Double.fin (4294967297 / 2)),
          Value.number (Double.fin (4294967297 / 2))] w).returnValue =
        some (Value.number (Double.ofInt v)) ∧ v < truncate (4294967297 / 2)) ∧
    (truncate (3 / 2) = 1 ∧ truncate (1 / 2) = 0 ∧
      ¬ ∃ v : ℤ, truncate (3 / 2) ≤ v ∧ v ≤ truncate (1 / 2)) := by
  have ht : truncate (4294967297 / 2) = 2147483648 :=
    truncate_eq_of_nonneg (by norm_num) (by norm_num) (by norm_num)
  have ht2 : truncate (3 / 2) = 1 :=
    truncate_eq_of_nonneg (by norm_num) (by norm_num) (by norm_num)
  refine ⟨ht, ?_, by decide, ?_, ht2, truncate_half, ?_⟩
  · rw [UniformInt_numbers]
    have h : toInt Sim.lib.intOutOfRange (Double.fin (4294967297 / 2)) =
        Sim.intOutOfRange (Double.fin (4294967297 / 2)) := by
      rw [toInt_of_not_fits]
      · rfl
      · rw [ht]
        decide
    rw [h]
    simp [World.SetReturnValue, Sim.lib, Sim.uniformInt, Sim.intOutOfRange, INT_MIN,
      Double.ofInt]
  · intro G L w
    obtain ⟨v, hv, _, hmax⟩ := UniformInt_returns_int L (Double.fin (4294967297 / 2)) w
    rw [ht]
    exact ⟨v, hv, lt_of_le_of_lt hmax (by decide)⟩
  · rintro ⟨v, h1, h2⟩
    rw [ht2] at h1
    rw [truncate_half] at h2
    omega

/-! ## The uniform real draw -/

/-- C3 (amended). For every pair of finite reals `min ≤ max` (`min = max` included) whose
difference does not exceed `DBL_MAX` and every engine state, `UniformReal(min, max)` sets
as return value the draw `v` of the library's uniform real distribution, unchanged, and
`min ≤ v ≤ max`: the upper bound is not strict.  The library's distribution is taken to
keep its draws in the closed interval it was constructed with, which is what holds of
`u * (max - min) + min` once rounded. -/
theorem UniformReal_in_closed_range (L : StdLib G) (hL : UniformRealInClosedRange L)
    (w : World) (min max : ℚ) (hle : min ≤ max) (hdiff : max - min ≤ DBL_MAX) :
    ∃ v : Double, (UniformReal L [Value.number (Double.fin min),
        Value.number (Double.fin max)] w).returnValue = some (Value.number v) ∧
      v = (L.uniform_real_distribution (Double.fin min) (Double.fin max)
        (L.mt19937 w.random_device.1)).1 ∧
      Double.le (Double.fin min) v = true ∧ Double.le v (Double.fin max) = true := by
  have h := hL min max (L.mt19937 w.random_device.1) hle hdiff
  exact ⟨_, by rw [UniformReal_numbers]; rfl, rfl, h.1, h.2⟩

/-- C3 (amended) at `min = 1`, `max = 3` and at `min = max = 0` on the stand-in library. -/
theorem UniformReal_in_closed_range_witness :
    (∃ v : Double, (UniformReal Sim.lib [Value.number (Double.fin 1),
        Value.number (Double.fin 3)] (Sim.world 7)).returnValue = some (Value.number v) ∧
      v = (Sim.lib.uniform_real_distribution (Double.fin 1) (Double.fin 3)
        (Sim.lib.mt19937 (Sim.world 7).random_device.1)).1 ∧
      Double.le (Double.fin 1) v = true ∧ Double.le v (Double.fin 3) = true) ∧
    (∃ v : Double, (UniformReal Sim.lib [Value.number (Double.fin 0),
        Value.number (Double.fin 0)] (Sim.world 7)).returnValue = some (Value.number v) ∧
      v = (Sim.lib.uniform_real_distribution (Double.fin 0) (Double.fin 0)
        (Sim.lib.mt19937 (Sim.world 7).random_device.1)).1 ∧
      Double.le (Double.fin 0) v = true ∧ Double.le v (Double.fin 0) = true) :=
  ⟨UniformReal_in_closed_range Sim.lib Sim.lib_uniformRealInClosedRange (Sim.world 7) 1 3
      (by norm_num) (by unfold DBL_MAX; norm_num),
    UniformReal_in_closed_range Sim.lib Sim.lib_uniformRealInClosedRange (Sim.world 7) 0 0
      (le_refl _) (by unfold DBL_MAX; norm_num)⟩

/-- C3 as stated fails at `min = max = 0`: the value returned is `0`, which is not below
`max`; no double `v` at all satisfies `0 ≤ v < 0`. -/
theorem UniformReal_empty_interval :
    (UniformReal Sim.lib [Value.number (Double.fin 0), Value.number (Double.fin 0)]
        (Sim.world 7)).returnValue = some (Value.number (Double.fin 0)) ∧
    Double.lt (Double.fin 0) (Double.fin 0) = false ∧
    ¬ ∃ v : Double, Double.le (Double.fin 0) v = true ∧ Double.lt v (Double.fin 0) = true := by
  refine ⟨?_, by simp [Double.lt], ?_⟩
  · rw [UniformReal_numbers]
    simp [World.SetReturnValue, Sim.lib, Sim.uniformReal]
  · rintro ⟨v, h1, h2⟩
    cases v with
    | nan => simp [Double.le] at h1
    | ninf => simp [Double.le] at h1
    | pinf => simp [Double.lt] at h2
    | fin q =>
      simp only [Double.le, Double.lt, decide_eq_true_eq] at h1 h2
      exact absurd h1 (not_le.mpr h2)

/-! ## Parameters outside the domain of the distribution -/

/-- C4 (amended). `Geometric` with `p = 0` or `p > 1` and `Exponential` with `lambda ≤ 0`
do not fail: the code validates no numeric parameter, so whatever the number passed the
pending exception is left as it was and the draw the library's distribution makes with
that parameter is set as return value. -/
theorem samplers_do_not_validate (L : StdLib G) (w : World) (p lambda : Double) :
    ((Geometric L [Value.number p] w).exception = w.exception ∧
      (Geometric L [Value.number p] w).returnValue =
        some (Value.number (Double.ofInt
          (L.geometric_distribution p (L.mt19937 w.random_device.1)).1.val))) ∧
    ((Exponential L [Value.number lambda] w).exception = w.exception ∧
      (Exponential L [Value.number lambda] w).returnValue =
        some (Value.number
          (L.exponential_distribution lambda (L.mt19937 w.random_device.1)).1)) :=
  ⟨⟨rfl, rfl⟩, ⟨rfl, rfl⟩⟩

/-- C4 as stated fails at `Geometric(p = 0)`: on the stand-in library no exception is
pending after the call and a number is set as return value.  The same holds whatever the
library and the world, also at `Geometric(p = 2)`, `Exponential(lambda = 0)` and
`Exponential(lambda = -1)`: the pending exception is as before the call and a number is
set as return value. -/
theorem no_InvalidParameter :
    ((Geometric Sim.lib [Value.number (Double.fin 0)] (Sim.world 7)).exception = none ∧
      ∃ v : Double, (Geometric Sim.lib [Value.number (Double.fin 0)]
        (Sim.world 7)).returnValue = some (Value.number v)) ∧
    (∀ (G : Type) (L : StdLib G) (w : World),
      ((Geometric L [Value.number (Double.fin 0)] w).exception = w.exception ∧
        ∃ v : Double, (Geometric L [Value.number (Double.fin 0)] w).returnValue =
          some (Value.number v)) ∧
      ((Geometric L [Value.number (Double.fin 2)] w).exception = w.exception ∧
        ∃ v : Double, (Geometric L [Value.number (Double.fin 2)] w).returnValue =
          some (Value.number v)) ∧
      ((Exponential L [Value.number (Double.fin 0)] w).exception = w.exception ∧
        ∃ v : Double, (Exponential L [Value.number (Double.fin 0)] w).returnValue =
          some (Value.number v)) ∧
      ((Exponential L [Value.number (Double.fin (-1))] w).exception = w.exception ∧
        ∃ v : Double, (Exponential L [Value.number (Double.fin (-1))] w).returnValue =
          some (Value.number v))) :=
  ⟨⟨rfl, _, rfl⟩, fun _ _ _ => ⟨⟨rfl, _, rfl⟩, ⟨rfl, _, rfl⟩, ⟨rfl, _, rfl⟩, ⟨rfl, _, rfl⟩⟩⟩

/-! ## The logarithm of the inner normal draw -/

/-- C5 fails at `mean_rate = 1`, `stddev_rate = 1` on an engine whose draws are
`m = 1/3`, `d = 7/9` and `x = -4/9`: no exception is raised and the value returned is
not-a-number, which is not finite. -/
theorem ProactiveExpNormal_returns_nan :
    ProactiveExpNormal.draws Sim.lib (Double.fin 1) (Double.fin 1)
        (Sim.lib.mt19937 (Sim.world 4).random_device.1) =
      (Double.fin (1 / 3), Double.fin (7 / 9), Double.fin (-4 / 9)) ∧
    (ProactiveExpNormal Sim.lib [Value.number (Double.fin 1), Value.number (Double.fin 1)]
        (Sim.world 4)).exception = none ∧
    (ProactiveExpNormal Sim.lib [Value.number (Double.fin 1), Value.number (Double.fin 1)]
        (Sim.world 4)).returnValue = some (Value.number Double.nan) ∧
    Double.isFinite Double.nan = false := by
  have hseed : Sim.lib.mt19937 (Sim.world 4).random_device.1 = 4 := by
    show (Sim.world 4).random_device.1 = 4
    exact Sim.world_random_device 4 (by norm_num)
  refine ⟨by rw [hseed]; exact Sim.draws_seed_4, rfl, ?_, rfl⟩
  rw [ProactiveExpNormal_draws, hseed, Sim.draws_seed_4]
  rw [reflect_log_of_neg _ _ _ (by simp only [Double.lt, decide_eq_true_eq]; norm_num)]
  rfl

/-- C8 (amended). For every exponential draw `m ≥ 0` (plus infinity included,
not-a-number excluded) and every inner normal draw `x > 0`, the value `r` returned by
`ProactiveExpNormal` is at least `m`, and the reflection rule applied to `r` gives `r`
again. -/
theorem ProactiveExpNormal_at_least_m (L : StdLib G) (ml dl : Double) (w : World)
    (m d x : Double)
    (hdraws : ProactiveExpNormal.draws L ml dl (L.mt19937 w.random_device.1) = (m, d, x))
    (hm : Double.le (Double.fin 0) m = true) (hx : Double.lt (Double.fin 0) x = true) :
    ∃ r : Double, (ProactiveExpNormal L [Value.number ml, Value.number dl] w).returnValue =
        some (Value.number r) ∧
      Double.le m r = true ∧
      reflect r m = r := by
  refine ⟨reflect (Double.log L.ln x) m, by rw [ProactiveExpNormal_draws, hdraws]; rfl, ?_⟩
  cases m with
  | nan => simp [Double.le] at hm
  | ninf => simp [Double.le] at hm
  | pinf =>
    cases x with
    | nan => simp [Double.lt] at hx
    | ninf => simp [Double.lt] at hx
    | pinf => simp [reflect, Double.log, Double.lt, Double.le]
    | fin q =>
      simp only [Double.lt, decide_eq_true_eq] at hx
      have h1 : ¬ q < 0 := not_lt.mpr hx.le
      have h2 : ¬ q = 0 := hx.ne'
      simp [reflect, Double.log, h1, h2, Double.lt, Double.le, Double.mul, Double.mulInf,
        Double.sub, Double.neg, Double.add]
  | fin mq =>
    cases x with
    | nan => simp [Double.lt] at hx
    | ninf => simp [Double.lt] at hx
    | pinf => simp [reflect, Double.log, Double.lt, Double.le]
    | fin q =>
      simp only [Double.lt, decide_eq_true_eq] at hx
      have h1 : ¬ q < 0 := not_lt.mpr hx.le
      have h2 : ¬ q = 0 := hx.ne'
      simp only [Double.log, h1, h2, if_false, reflect_fin]
      refine ⟨?_, ?_⟩
      · simp only [Double.le, decide_eq_true_eq]
        linarith [abs_nonneg (L.ln q - mq)]
      · congr 1
        rw [add_sub_cancel_left, abs_abs]

/-- C8 (amended) at `mean_rate = 1`, `stddev_rate = 1` on the stand-in library with seed
`6`: the draws are `m = 3/5`, `d = 1/15`, `x = 3/5`, and the reflection is taken. -/
theorem ProactiveExpNormal_at_least_m_witness :
    ∃ r : Double, (ProactiveExpNormal Sim.lib [Value.number (Double.fin 1),
        Value.number (Double.fin 1)] (Sim.world 6)).returnValue = some (Value.number r) ∧
      Double.le (Double.fin (3 / 5)) r = true ∧
      reflect r (Double.fin (3 / 5)) = r :=
  ProactiveExpNormal_at_least_m Sim.lib (Double.fin 1) (Double.fin 1) (Sim.world 6)
    (Double.fin (3 / 5)) (Double.fin (1 / 15)) (Double.fin (3 / 5))
    (by
      have hseed : Sim.lib.mt19937 (Sim.world 6).random_device.1 = 6 := by
        show (Sim.world 6).random_device.1 = 6
        exact Sim.world_random_device 6 (by norm_num)
      rw [hseed]
      exact Sim.draws_seed_6)
    (by simp [Double.le]; norm_num) (by simp [Double.lt])

/-- C8 as stated fails at `mean_rate = 2^-1074`, `stddev_rate = 1` on an engine whose
exponential draw overflows: the draws are `m = +∞`, `d = 11/5`, `x = +∞`, so `x > 0`; the
value returned is `+∞`, while `m + |ln(x) - m|` is not-a-number, and so is
`|r - m|`.  The same holds whatever the library as soon as `m` and `x` are plus
infinity. -/
theorem ProactiveExpNormal_infinite_draws :
    (ProactiveExpNormal.draws Sim.libOverflow (Double.fin DBL_TRUE_MIN) (Double.fin 1)
        (Sim.libOverflow.mt19937 (Sim.world 8).random_device.1) =
          (Double.pinf, Double.fin (11 / 5), Double.pinf) ∧
      Double.lt (Double.fin 0) Double.pinf = true ∧
      (ProactiveExpNormal Sim.libOverflow [Value.number (Double.fin DBL_TRUE_MIN),
        Value.number (Double.fin 1)] (Sim.world 8)).returnValue =
          some (Value.number Double.pinf) ∧
      Double.add Double.pinf (Double.abs (Double.sub
        (Double.log Sim.libOverflow.ln Double.pinf) Double.pinf)) = Double.nan ∧
      Double.abs (Double.sub Double.pinf Double.pinf) = Double.nan) ∧
    (∀ (G : Type) (L : StdLib G) (ml dl : Double) (w : World) (d : Double),
      ProactiveExpNormal.draws L ml dl (L.mt19937 w.random_device.1) =
          (Double.pinf, d, Double.pinf) →
        (ProactiveExpNormal L [Value.number ml, Value.number dl] w).returnValue =
          some (Value.number Double.pinf) ∧
        Double.add Double.pinf (Double.abs (Double.sub
          (Double.log L.ln Double.pinf) Double.pinf)) = Double.nan) := by
  have hseed : Sim.libOverflow.mt19937 (Sim.world 8).random_device.1 = 8 := by
    show (Sim.world 8).random_device.1 = 8
    exact Sim.world_random_device 8 (by norm_num)
  refine ⟨⟨by rw [hseed]; exact Sim.draws_overflow_seed_8, rfl, ?_, rfl, rfl⟩, ?_⟩
  · rw [ProactiveExpNormal_draws, hseed, Sim.draws_overflow_seed_8]
    rfl
  · intro G L ml dl w d hdraws
    refine ⟨?_, rfl⟩
    rw [ProactiveExpNormal_draws, hdraws]
    rfl

end PseudoRand
